import Mathlib

/-!
Verification development for the `docker_plugin` Ansible module
(src/library/docker_plugin.py): a reconciler that converges the
installation/enablement state of one Docker engine plugin to a desired
state.  The Python module is shallowly embedded below: pure helpers
become Lean functions; the stateful `DockerPluginManager` becomes
explicit state passing over a `RunSt` record, with engine failures and
Python exceptions modelled by `Except String`.  The external Docker
engine (reached through docker-py) is modelled by an explicit `Engine`
record, and every Gateway call is recorded in a trace.
-/

namespace SetupLoki

/-- A Python `dict` whose values may be `None`: the `plugin_options`
module parameter.  Represented as an insertion-ordered
association list, as CPython dicts are. -/
abbrev OptionsMap := List (String × Option String)

/-- A Python `dict` with string values (the decoded live settings). -/
abbrev StrMap := List (String × String)

/-- Python dict assignment `d[k] = v`: overwrite in place if the key is
present (keeping its position), else append. -/
def dictInsert {α : Type} (d : List (String × α)) (k : String) (v : α) :
    List (String × α) :=
  if d.any (fun kv => kv.1 == k) then
    d.map (fun kv => if kv.1 == k then (k, v) else kv)
  else d ++ [(k, v)]

/-- Python `d.get(k)`: the value at `k`, or `None` if absent. -/
def lookupStr {α : Type} (d : List (String × α)) (k : String) : Option α :=
  (d.find? (fun kv => kv.1 == k)).map (fun kv => kv.2)

/-- Python `x.split('=', 1)` restricted to the information the module
uses: split a character list at the FIRST `'='`; `none` when the string
contains no `'='` (in which case the 2-tuple unpacking of the result
in the module raises). -/
def splitFirstEq : List Char → Option (List Char × List Char)
  | [] => none
  | c :: cs =>
      if c = '=' then some ([], cs)
      else
        match splitFirstEq cs with
        | some kv => some (c :: kv.1, kv.2)
        | none => none

/-- `prepare_options` (docker_plugin.py line 123): encode an options
dict as a flat list of `KEY=VALUE` strings; a `None` value encodes as
the empty string; a falsy dict (absent or empty) encodes as `[]`. -/
def prepare_options (options : Option OptionsMap) : List String :=
  match options with
  | some l => if l.isEmpty then [] else l.map (fun kv => kv.1 ++ "=" ++ kv.2.getD "")
  | none => []

/-- The error produced when an option string lacking `=` is decoded.
The spec taxonomy names this `MalformedOptionError`; in CPython it is
the `ValueError` raised by unpacking a 1-element split result into
`(k, v)`. -/
def malformedOptionMsg : String := "MalformedOptionError"

/-- The dict-builder loop inside `parse_options`: the CPython
`dict(generator)` consumes the entries left to right, inserting each
split pair, and propagates the unpacking error at the first entry
without `=`. -/
def parse_fold (d : StrMap) : List String → Except String StrMap
  | [] => Except.ok d
  | s :: rest =>
      match splitFirstEq s.data with
      | some kv => parse_fold (dictInsert d (String.mk kv.1) (String.mk kv.2)) rest
      | none => Except.error malformedOptionMsg

/-- `parse_options` (docker_plugin.py line 127): decode a flat
`KEY=VALUE` list into a dict, splitting each entry once on the first
`=`; a falsy list decodes to the empty dict. -/
def parse_options (options_list : List String) : Except String StrMap :=
  if options_list.isEmpty then Except.ok [] else parse_fold [] options_list

/-- `wrap_error` (docker_plugin.py line 131): `". ".join([str(prefix), str(error)])`. -/
def wrap_error (pfx : String) (error : String) : String :=
  pfx ++ ". " ++ error

/-- Python `str()` of a 1-tuple holding a string, as produced when
`wrap_error` receives a tuple as its prefix (the enable/disable/update
failure sites build their prefixes as 1-tuples).  Assumes the content
has no quote or backslash characters, which holds for the fixed
message texts of the module. -/
def strOfTuple1 (s : String) : String := "(\x27" ++ s ++ "\x27,)"

/-- Python `"%s" % name` for the optional image name. -/
def nameToStr : Option String → String
  | some s => s
  | none => "None"

/-- The `state` module parameter: one of the four target states. -/
inductive TState
  | present
  | absent
  | enabled
  | disabled
deriving DecidableEq

/-- `TaskParameters` (docker_plugin.py line 109): the module parameters
bound onto the manager. -/
structure Params where
  name : Option String
  aliasName : String
  plugin_options : Option OptionsMap
  state : TState
  debug : Bool

/-- The ambient client flags the manager reads: check mode and whether
a diff was requested (`client.check_mode`, `client.module._diff`). -/
structure Ctx where
  params : Params
  check_mode : Bool
  diff : Bool

/-- The live state of the plugin as held by the engine (and as read
into a snapshot): its enabled flag and its flat `Env` settings list. -/
structure EnginePlugin where
  enabled : Bool
  env : List String
deriving DecidableEq

/-- Modelled from the spec: the Plugin Gateway (spec section 4.3) is an
external collaborator (docker-py), not part of src/.  `Engine` is its
test double: the live plugin under the configured alias, the snapshot an
`install` would produce, and per-operation injected transport failures
(`none` = the operation succeeds). -/
structure Engine where
  plugin : Option EnginePlugin
  installResult : EnginePlugin
  lookupFail : Option String
  installFail : Option String
  removeFail : Option String
  enableFail : Option String
  disableFail : Option String
  configureFail : Option String

/-- Modelled from the spec: `lookup(alias)` — an absent plugin is a
normal `none` result, not a failure. -/
def Engine.lookupOp (e : Engine) : Except String (Option EnginePlugin) :=
  match e.lookupFail with
  | some err => Except.error err
  | none => Except.ok e.plugin

/-- Modelled from the spec: `install(name, alias)` returns the new
snapshot of the new plugin. -/
def Engine.installOp (e : Engine) : Except String (EnginePlugin × Engine) :=
  match e.installFail with
  | some err => Except.error err
  | none => Except.ok (e.installResult, { e with plugin := some e.installResult })

/-- Modelled from the spec: `remove(snapshot)`. -/
def Engine.removeOp (e : Engine) : Except String Engine :=
  match e.removeFail with
  | some err => Except.error err
  | none => Except.ok { e with plugin := none }

/-- Modelled from the spec: `enable(snapshot, timeout)`. -/
def Engine.enableOp (e : Engine) : Except String Engine :=
  match e.enableFail with
  | some err => Except.error err
  | none => Except.ok { e with plugin := e.plugin.map (fun p => { p with enabled := true }) }

/-- Modelled from the spec: `disable(snapshot)`. -/
def Engine.disableOp (e : Engine) : Except String Engine :=
  match e.disableFail with
  | some err => Except.error err
  | none => Except.ok { e with plugin := e.plugin.map (fun p => { p with enabled := false }) }

/-- Modelled from the spec: `configure(snapshot, encoded_options)`. -/
def Engine.configureOp (e : Engine) (opts : List String) : Except String Engine :=
  match e.configureFail with
  | some err => Except.error err
  | none => Except.ok { e with plugin := e.plugin.map (fun p => { p with env := opts }) }

/-- No transport failure is injected for any operation. -/
def Engine.happy (e : Engine) : Prop :=
  e.lookupFail = none ∧ e.installFail = none ∧ e.removeFail = none ∧
  e.enableFail = none ∧ e.disableFail = none ∧ e.configureFail = none

/-- One recorded Gateway call. -/
inductive GCall
  | lookup
  | install (name : Option String) (aliasName : String)
  | remove
  | enable (timeout : Nat)
  | disable
  | configure (opts : List String)
deriving DecidableEq

/-- `true` for the five mutating operations, `false` for `lookup`. -/
def GCall.isMutating : GCall → Bool
  | .lookup => false
  | _ => true

/-- A value stored in a difference record: the module passes booleans,
per-key option values, the whole desired dict, or the decoded live
dict. -/
inductive DiffVal
  | vStr (s : Option String)
  | vBool (b : Bool)
  | vOptMap (m : Option OptionsMap)
  | vStrMap (m : StrMap)
deriving DecidableEq

/-- Modelled from the spec: one record of the external
`DifferenceTracker` (spec section 4.2): a key with the desired
(`parameter`) and live (`active`) values. -/
structure DiffRec where
  key : String
  parameter : DiffVal
  active : DiffVal
deriving DecidableEq

/-- Modelled from the spec: `DifferenceTracker.get_before_after` —
`before[key] = active`, `after[key] = parameter` for every record,
last write wins on duplicate keys. -/
def get_before_after (l : List DiffRec) :
    List (String × DiffVal) × List (String × DiffVal) :=
  (l.foldl (fun acc r => dictInsert acc r.key r.active) [],
   l.foldl (fun acc r => dictInsert acc r.key r.parameter) [])

/-- The value stored under the `diff` key of the results: the legacy flat
list set by the `present`/`enable` handlers, or the `diff_result` dict
the constructor stores at the end (holding before/after maps only when
a diff was requested). -/
inductive PyDiff
  | legacy (records : List DiffRec)
  | finalDiff (before_after : Option (List (String × DiffVal) × List (String × DiffVal)))

/-- The mutable state of one `DockerPluginManager` run: the engine, the
trace of Gateway calls made so far, the `self.existing_plugin`
snapshot, the `results` dict (`changed`, `actions`, whether `actions`
was popped, the `diff` entry) and the top-level `diff_tracker`. -/
structure RunSt where
  engine : Engine
  trace : List GCall
  existing_plugin : Option EnginePlugin
  changed : Bool
  actions : List String
  actionsPopped : Bool
  diff_tracker : List DiffRec
  resultsDiff : Option PyDiff

/-- The uncaught `AttributeError` raised when `enable_plugin` (or
`update_plugin`) reads `.enabled` off a `None` snapshot. -/
def attributeErrorMsg : String :=
  "AttributeError: NoneType object has no attribute enabled"

/-- Failure message of `get_existing_plugin` (line 180). -/
def lookupFailMsg (e : String) : String :=
  wrap_error "Failed to query existing plugins" e

/-- Failure message of `install_plugin` (line 211). -/
def installFailMsg (p : Params) (e : String) : String :=
  wrap_error ("Failed to install local docker logging plugin " ++ p.aliasName ++
    " from " ++ nameToStr p.name) e

/-- Failure message of `remove_plugin` (line 227). -/
def removeFailMsg (p : Params) (e : String) : String :=
  wrap_error ("Failed to remove local docker logging plugin " ++ p.aliasName) e

/-- Failure message of `enable_plugin` (line 244); the prefix is built
as a 1-tuple in the source. -/
def enableFailMsg (p : Params) (e : String) : String :=
  wrap_error (strOfTuple1 ("Failed to enable local docker logging plugin " ++ p.aliasName ++ ". ")) e

/-- Failure message of `disable_plugin` (line 263); tuple prefix. -/
def disableFailMsg (p : Params) (e : String) : String :=
  wrap_error (strOfTuple1 ("Failed to disable local docker logging plugin " ++ p.aliasName ++ ". ")) e

/-- Failure message of the configure call in `update_plugin` (line 287);
tuple prefix. -/
def configureFailMsg (p : Params) (e : String) : String :=
  wrap_error (strOfTuple1 ("Failed to update local docker logging plugin " ++ p.aliasName)) e

/-- Action string appended by `install_plugin` (line 217). -/
def installedAction (p : Params) : String :=
  "Installed local docker logging plugin " ++ p.aliasName ++ " from " ++ nameToStr p.name ++ "."

/-- Action string appended by `remove_plugin` (line 233). -/
def removedAction (p : Params) : String :=
  "Removed local docker logging plugin " ++ p.aliasName ++ "."

/-- Action string appended by `enable_plugin` (line 253). -/
def enabledAction (p : Params) : String :=
  "Enabled local docker logging plugin " ++ p.aliasName ++ "."

/-- Action string appended by `disable_plugin` (line 272). -/
def disabledAction (p : Params) : String :=
  "Disabled local docker logging plugin " ++ p.aliasName ++ "."

/-- Action string appended by `update_plugin` (line 298). -/
def updatedAction (p : Params) : String :=
  "Updated local docker logging plugin " ++ p.aliasName ++ " settings."

namespace DockerPluginManager

/-- `get_existing_plugin` (lines 172-184): look the alias up; `None`
on not-found; fail with the wrapped message on an API error.  Returns
the fetched snapshot together with the state (trace extended). -/
def get_existing_plugin (st : RunSt) : Except String (Option EnginePlugin × RunSt) :=
  let st1 : RunSt := { st with trace := st.trace ++ [GCall.lookup] }
  match st1.engine.lookupOp with
  | Except.error err => Except.error (lookupFailMsg err)
  | Except.ok p => Except.ok (p, st1)

/-- The body of the per-key loop of `has_different_config` (lines 198-201):
compare the live value under the desired key with the desired value and
append a difference record when they differ. -/
def hdcStep (existing_options : StrMap) (acc : List DiffRec) (kv : String × Option String) :
    List DiffRec :=
  let active := lookupStr existing_options kv.1
  if active ≠ kv.2 then
    acc ++ [⟨"plugin_options." ++ kv.1, DiffVal.vStr kv.2, DiffVal.vStr active⟩]
  else acc

/-- `has_different_config` (lines 186-202): differences between the
desired options and the decoded live `Env` settings; the whole desired
dict is one record when the live settings decode to an empty dict;
otherwise one record per desired key whose live value differs. -/
def has_different_config (ctx : Ctx) (p : EnginePlugin) : Except String (List DiffRec) :=
  match ctx.params.plugin_options with
  | none => Except.ok []
  | some opts =>
    if opts.isEmpty then Except.ok []
    else
      match parse_options p.env with
      | Except.error err => Except.error err
      | Except.ok existing_options =>
        if existing_options.isEmpty then
          Except.ok [⟨"plugin_options", DiffVal.vOptMap (some opts), DiffVal.vStrMap existing_options⟩]
        else
          Except.ok (opts.foldl (hdcStep existing_options) [])

/-- `install_plugin` (lines 204-218). -/
def install_plugin (ctx : Ctx) (st : RunSt) : Except String RunSt :=
  match st.existing_plugin with
  | some _ => Except.ok st
  | none =>
    let afterCall : Except String RunSt :=
      if ctx.check_mode then Except.ok st
      else
        let st1 : RunSt :=
          { st with trace := st.trace ++ [GCall.install ctx.params.name ctx.params.aliasName] }
        match st1.engine.installOp with
        | Except.error err => Except.error (installFailMsg ctx.params err)
        | Except.ok pe => Except.ok { st1 with engine := pe.2, existing_plugin := some pe.1 }
    match afterCall with
    | Except.error err => Except.error err
    | Except.ok st2 =>
      Except.ok { st2 with actions := st2.actions ++ [installedAction ctx.params], changed := true }

/-- `remove_plugin` (lines 220-234).  Note the snapshot is not cleared
after removal, as in the source. -/
def remove_plugin (ctx : Ctx) (st : RunSt) : Except String RunSt :=
  match st.existing_plugin with
  | none => Except.ok st
  | some _ =>
    let afterCall : Except String RunSt :=
      if ctx.check_mode then Except.ok st
      else
        let st1 : RunSt := { st with trace := st.trace ++ [GCall.remove] }
        match st1.engine.removeOp with
        | Except.error err => Except.error (removeFailMsg ctx.params err)
        | Except.ok eng => Except.ok { st1 with engine := eng }
    match afterCall with
    | Except.error err => Except.error err
    | Except.ok st2 =>
      Except.ok { st2 with actions := st2.actions ++ [removedAction ctx.params], changed := true }

/-- `enable_plugin` (lines 236-254): re-fetch the snapshot, then read
`.enabled` off it — an `AttributeError` when it is `None`. -/
def enable_plugin (ctx : Ctx) (mainAction : Bool) (st : RunSt) : Except String RunSt :=
  match get_existing_plugin st with
  | Except.error err => Except.error err
  | Except.ok ps =>
    let st1 : RunSt := { ps.2 with existing_plugin := ps.1 }
    match ps.1 with
    | none => Except.error attributeErrorMsg
    | some p =>
      if p.enabled then Except.ok st1
      else
        let afterCall : Except String RunSt :=
          if ctx.check_mode then Except.ok st1
          else
            let st2 : RunSt := { st1 with trace := st1.trace ++ [GCall.enable 1] }
            match st2.engine.enableOp with
            | Except.error err => Except.error (enableFailMsg ctx.params err)
            | Except.ok eng => Except.ok { st2 with engine := eng }
        match afterCall with
        | Except.error err => Except.error err
        | Except.ok st3 =>
          if mainAction then
            Except.ok { st3 with actions := st3.actions ++ [enabledAction ctx.params], changed := true }
          else Except.ok st3

/-- `disable_plugin` (lines 256-273): decides on the CURRENT snapshot
(no re-fetch). -/
def disable_plugin (ctx : Ctx) (mainAction : Bool) (st : RunSt) : Except String RunSt :=
  match st.existing_plugin with
  | none => Except.ok st
  | some p =>
    if p.enabled then
      let afterCall : Except String RunSt :=
        if ctx.check_mode then Except.ok st
        else
          let st1 : RunSt := { st with trace := st.trace ++ [GCall.disable] }
          match st1.engine.disableOp with
          | Except.error err => Except.error (disableFailMsg ctx.params err)
          | Except.ok eng => Except.ok { st1 with engine := eng }
      match afterCall with
      | Except.error err => Except.error err
      | Except.ok st2 =>
        if mainAction then
          Except.ok { st2 with actions := st2.actions ++ [disabledAction ctx.params], changed := true }
        else Except.ok st2
    else Except.ok st

/-- `update_plugin` (lines 275-299): outside check mode, disable first
when the snapshot says enabled (no bookkeeping), configure with the
encoded desired options, and re-enable (no bookkeeping) when the
target state is `enabled`; in every case append the single "Updated"
action and set `changed`. -/
def update_plugin (ctx : Ctx) (st : RunSt) : Except String RunSt :=
  let sub : Except String RunSt :=
    if ctx.check_mode then Except.ok st
    else
      let afterDisable : Except String RunSt :=
        match st.existing_plugin with
        | none => Except.error attributeErrorMsg
        | some p => if p.enabled then disable_plugin ctx false st else Except.ok st
      match afterDisable with
      | Except.error err => Except.error err
      | Except.ok stA =>
        let opts := prepare_options ctx.params.plugin_options
        let stB : RunSt := { stA with trace := stA.trace ++ [GCall.configure opts] }
        match stB.engine.configureOp opts with
        | Except.error err => Except.error (configureFailMsg ctx.params err)
        | Except.ok eng =>
          let stC : RunSt := { stB with engine := eng }
          if ctx.params.state = TState.enabled then enable_plugin ctx false stC
          else Except.ok stC
  match sub with
  | Except.error err => Except.error err
  | Except.ok stD =>
    Except.ok { stD with actions := stD.actions ++ [updatedAction ctx.params], changed := true }

/-- The `exists` record the `present`/`enable` handlers add to the
top-level tracker. -/
def existsRec (st : RunSt) : DiffRec :=
  ⟨"exists", DiffVal.vBool true, DiffVal.vBool st.existing_plugin.isSome⟩

/-- `present` (lines 301-321). -/
def present (ctx : Ctx) (st : RunSt) : Except String RunSt :=
  match (match st.existing_plugin with
         | some p => has_different_config ctx p
         | none => Except.ok []) with
  | Except.error err => Except.error err
  | Except.ok differences =>
    let st1 : RunSt := { st with diff_tracker := st.diff_tracker ++ [existsRec st] }
    match (if differences.isEmpty then install_plugin ctx st1 else update_plugin ctx st1) with
    | Except.error err => Except.error err
    | Except.ok st2 =>
      let st3 : RunSt :=
        if ctx.diff || ctx.check_mode || ctx.params.debug then
          { st2 with resultsDiff := some (PyDiff.legacy differences),
                     diff_tracker := st2.diff_tracker ++ differences }
        else st2
      if !ctx.check_mode && !ctx.params.debug then
        Except.ok { st3 with actionsPopped := true }
      else Except.ok st3

/-- `absent` (lines 323-324). -/
def absent (ctx : Ctx) (st : RunSt) : Except String RunSt :=
  remove_plugin ctx st

/-- `enable` (lines 326-348). -/
def enable (ctx : Ctx) (st : RunSt) : Except String RunSt :=
  match (match st.existing_plugin with
         | some p => has_different_config ctx p
         | none => Except.ok []) with
  | Except.error err => Except.error err
  | Except.ok differences =>
    let st1 : RunSt := { st with diff_tracker := st.diff_tracker ++ [existsRec st] }
    match (if differences.isEmpty then
             match install_plugin ctx st1 with
             | Except.error err => Except.error err
             | Except.ok stI => enable_plugin ctx true stI
           else update_plugin ctx st1) with
    | Except.error err => Except.error err
    | Except.ok st2 =>
      let st3 : RunSt :=
        if ctx.diff || ctx.check_mode || ctx.params.debug then
          { st2 with resultsDiff := some (PyDiff.legacy differences),
                     diff_tracker := st2.diff_tracker ++ differences }
        else st2
      if !ctx.check_mode && !ctx.params.debug then
        Except.ok { st3 with actionsPopped := true }
      else Except.ok st3

/-- `disable` (lines 350-351). -/
def disable (ctx : Ctx) (st : RunSt) : Except String RunSt :=
  disable_plugin ctx true st

/-- `__init__` (lines 138-169): fetch the initial snapshot, dispatch on
the target state, then store the final `diff` entry when a diff was
requested or check mode or debug is on. -/
def run (ctx : Ctx) (eng : Engine) : Except String RunSt :=
  let st0 : RunSt := ⟨eng, [], none, false, [], false, [], none⟩
  match get_existing_plugin st0 with
  | Except.error err => Except.error err
  | Except.ok ps =>
    let st1 : RunSt := { ps.2 with existing_plugin := ps.1 }
    match (match ctx.params.state with
           | TState.present => present ctx st1
           | TState.absent => absent ctx st1
           | TState.enabled => enable ctx st1
           | TState.disabled => disable ctx st1) with
    | Except.error err => Except.error err
    | Except.ok st2 =>
      let diff_result : PyDiff :=
        PyDiff.finalDiff (if ctx.diff then some (get_before_after st2.diff_tracker) else none)
      if ctx.diff || ctx.check_mode || ctx.params.debug then
        Except.ok { st2 with resultsDiff := some diff_result }
      else Except.ok st2

end DockerPluginManager

/-! ### Helper lemmas about the option codec -/

@[simp]
theorem except_toOption_ok {ε α : Type} (a : α) :
    (Except.ok a : Except ε α).toOption = some a := rfl

@[simp]
theorem except_toOption_error {ε α : Type} (e : ε) :
    (Except.error e : Except ε α).toOption = none := rfl

theorem splitFirstEq_append (k v : List Char) (hk : '=' ∉ k) :
    splitFirstEq (k ++ '=' :: v) = some (k, v) := by
  induction k with
  | nil => simp [splitFirstEq]
  | cons c cs ih =>
    have hc : c ≠ '=' := fun h => hk (h ▸ List.mem_cons_self c cs)
    have hcs : '=' ∉ cs := fun h => hk (List.mem_cons_of_mem c h)
    simp [splitFirstEq, hc, ih hcs]

theorem splitFirstEq_none_iff (cs : List Char) :
    splitFirstEq cs = none ↔ '=' ∉ cs := by
  induction cs with
  | nil => simp [splitFirstEq]
  | cons c rest ih =>
    by_cases hc : c = '='
    · subst hc; simp [splitFirstEq]
    · rw [splitFirstEq]
      simp only [hc, if_false]
      cases h : splitFirstEq rest with
      | some kv => simp [h, List.mem_cons, hc, ← ih, Ne.symm hc]
      | none => simp [h, List.mem_cons, hc, ← ih, Ne.symm hc]

theorem splitFirstEq_some (cs : List Char) (k v : List Char)
    (h : splitFirstEq cs = some (k, v)) : cs = k ++ '=' :: v ∧ '=' ∉ k := by
  induction cs generalizing k v with
  | nil => simp [splitFirstEq] at h
  | cons c rest ih =>
    by_cases hc : c = '='
    · subst hc
      simp [splitFirstEq] at h
      obtain ⟨hk, hv⟩ := h
      subst hk; subst hv
      simp
    · rw [splitFirstEq] at h
      simp only [hc, if_false] at h
      cases hs : splitFirstEq rest with
      | none => rw [hs] at h; exact absurd h (by simp)
      | some kv =>
        rw [hs] at h
        simp only [Option.some.injEq, Prod.mk.injEq] at h
        obtain ⟨hk, hv⟩ := h
        obtain ⟨hrest, hmem⟩ := ih kv.1 kv.2 (by rw [hs])
        subst hk
        constructor
        · simp [hrest, hv]
        · simp only [List.mem_cons, not_or]
          exact ⟨Ne.symm hc, hmem⟩

theorem dictInsert_of_not_mem {α : Type} (d : List (String × α)) (k : String) (v : α)
    (h : d.any (fun kv => kv.1 == k) = false) : dictInsert d k v = d ++ [(k, v)] := by
  simp [dictInsert, h]

theorem parse_fold_encode (m : StrMap) :
    ∀ d : StrMap,
      (∀ kv ∈ m, '=' ∉ kv.1.data) → (m.map Prod.fst).Nodup →
      (∀ kv ∈ m, d.any (fun x => x.1 == kv.1) = false) →
      parse_fold d (m.map (fun kv => kv.1 ++ "=" ++ kv.2)) = Except.ok (d ++ m) := by
  induction m with
  | nil => intro d _ _ _; simp [parse_fold]
  | cons hd tl ih =>
    intro d hkeys hnd hdisj
    obtain ⟨k, v⟩ := hd
    have hdata : (k ++ "=" ++ v).data = k.data ++ '=' :: v.data := by
      simp [String.data_append]
    rw [List.map_cons, parse_fold, hdata,
      splitFirstEq_append k.data v.data (hkeys (k, v) (List.mem_cons_self _ _))]
    have hmkk : String.mk k.data = k := rfl
    have hmkv : String.mk v.data = v := rfl
    dsimp only
    rw [hmkk, hmkv, dictInsert_of_not_mem d k v (hdisj (k, v) (List.mem_cons_self _ _))]
    have hnd' : (tl.map Prod.fst).Nodup := (List.nodup_cons.mp hnd).2
    have hknotin : k ∉ tl.map Prod.fst := (List.nodup_cons.mp hnd).1
    rw [ih (d ++ [(k, v)]) (fun kv hkv => hkeys kv (List.mem_cons_of_mem _ hkv)) hnd'
      (by
        intro kv hkv
        have hne : kv.1 ≠ k := by
          intro hcontra
          exact hknotin (hcontra ▸ List.mem_map_of_mem Prod.fst hkv)
        have h1 : d.any (fun x => x.1 == kv.1) = false :=
          hdisj kv (List.mem_cons_of_mem _ hkv)
        simp only [List.any_append, h1, Bool.false_or, List.any_cons, List.any_nil,
          Bool.or_false]
        simp [Ne.symm hne])]
    simp

/-- Claim C5 counterexample: the round-trip law fails for a mapping
whose key contains `=`: encoding `\x7b"a=b": "c"\x7d` gives `["a=b=c"]`,
which decodes to `\x7b"a": "b=c"\x7d`, not the original mapping. -/
theorem C5_roundtrip_counterexample :
    parse_options (prepare_options (some [("a=b", some "c")])) ≠
      Except.ok ([("a=b", "c")] : StrMap) := by
  have hval : parse_options (prepare_options (some [("a=b", some "c")])) =
      Except.ok ([("a", "b=c")] : StrMap) := rfl
  rw [hval]
  intro h
  injection h with h2
  exact absurd h2 (by decide)

/-- Claim C5 (amended): for every mapping with non-null string values
whose keys contain no `=` character, decoding the encoding yields the
original mapping (`parse_options (prepare_options m) = m`).  Keys of a
mapping are distinct, which the `Nodup` hypothesis expresses for the
association-list representation. -/
theorem C5_roundtrip (m : StrMap)
    (hnd : (m.map Prod.fst).Nodup)
    (hkeys : ∀ kv ∈ m, '=' ∉ kv.1.data) :
    parse_options (prepare_options (some (m.map (fun kv => (kv.1, some kv.2))))) =
      Except.ok m := by
  cases m with
  | nil => rfl
  | cons hd tl =>
    have henc : prepare_options (some ((hd :: tl).map (fun kv => (kv.1, some kv.2)))) =
        (hd :: tl).map (fun kv => kv.1 ++ "=" ++ kv.2) := by
      simp [prepare_options]
    rw [henc, parse_options]
    have : ((hd :: tl).map (fun kv => kv.1 ++ "=" ++ kv.2)).isEmpty = false := by simp
    rw [this]
    simp only [Bool.false_eq_true, if_false]
    have := parse_fold_encode (hd :: tl) [] hkeys hnd (by intro kv _; rfl)
    rw [this]
    simp

/-- Claim C5 witness: the round-trip law holds at a concrete mapping
with a `=`-free key. -/
theorem C5_roundtrip_witness :
    parse_options (prepare_options (some ([("LOG_LEVEL", some "DEBUG")] : OptionsMap))) =
      Except.ok ([("LOG_LEVEL", "DEBUG")] : StrMap) :=
  C5_roundtrip [("LOG_LEVEL", "DEBUG")] (by decide) (by decide)

theorem parse_fold_ok_iff (l : List String) :
    ∀ d : StrMap, (∃ r, parse_fold d l = Except.ok r) ↔ ∀ s ∈ l, '=' ∈ s.data := by
  induction l with
  | nil => intro d; simp [parse_fold]
  | cons s rest ih =>
    intro d
    cases h : splitFirstEq s.data with
    | none =>
      rw [splitFirstEq_none_iff] at h
      simp only [parse_fold]
      rw [(splitFirstEq_none_iff s.data).mpr h]
      simp [h]
    | some kv =>
      have hmem : '=' ∈ s.data := by
        obtain ⟨heq, _⟩ := splitFirstEq_some s.data kv.1 kv.2 h
        rw [heq]; simp
      simp only [parse_fold, h]
      rw [ih]
      simp [hmem]

theorem parse_fold_err (l : List String) :
    ∀ d : StrMap, ¬ (∀ s ∈ l, '=' ∈ s.data) →
      parse_fold d l = Except.error malformedOptionMsg := by
  induction l with
  | nil => intro d h; exact absurd (by simp) h
  | cons s rest ih =>
    intro d h
    cases hs : splitFirstEq s.data with
    | none => simp [parse_fold, hs]
    | some kv =>
      have hmem : '=' ∈ s.data := by
        obtain ⟨heq, _⟩ := splitFirstEq_some s.data kv.1 kv.2 hs
        rw [heq]; simp
      simp only [parse_fold, hs]
      exact ih _ (by
        intro hall
        exact h (by
          intro t ht
          rcases List.mem_cons.mp ht with rfl | htl
          · exact hmem
          · exact hall t htl))

/-- Claim C6 (confirmed): `parse_options` fails (with the error the
spec names `MalformedOptionError`) iff some entry of the input contains
no `=`; otherwise it succeeds, splitting each entry once on the FIRST
`=` (`splitFirstEq` returns the part before the first `=`, which itself
contains no `=`, and everything after it); the empty list decodes to
the empty mapping.  Malformed entries are never silently dropped: their
presence makes the whole call fail. -/
theorem C6_parse_options_malformed (l : List String) :
    ((∃ d, parse_options l = Except.ok d) ↔ ∀ s ∈ l, '=' ∈ s.data) ∧
    (¬ (∀ s ∈ l, '=' ∈ s.data) → parse_options l = Except.error malformedOptionMsg) ∧
    (∀ (cs k v : List Char), splitFirstEq cs = some (k, v) → cs = k ++ '=' :: v ∧ '=' ∉ k) ∧
    parse_options ([] : List String) = Except.ok ([] : StrMap) := by
  refine ⟨?_, ?_, fun cs k v h => splitFirstEq_some cs k v h, rfl⟩
  · cases l with
    | nil => simp [parse_options]
    | cons s rest =>
      rw [parse_options]
      simp only [List.isEmpty_cons, Bool.false_eq_true, if_false]
      exact parse_fold_ok_iff (s :: rest) []
  · intro h
    cases l with
    | nil => exact absurd (by simp) h
    | cons s rest =>
      rw [parse_options]
      simp only [List.isEmpty_cons, Bool.false_eq_true, if_false]
      exact parse_fold_err (s :: rest) [] h

/-- Claim C6 witness: a list with a `=`-less entry fails with the
malformed-option error; a well-formed list decodes. -/
theorem C6_parse_options_witness :
    parse_options ["LOG_LEVEL=DEBUG", "corrupt"] = Except.error malformedOptionMsg :=
  (C6_parse_options_malformed ["LOG_LEVEL=DEBUG", "corrupt"]).2.1 (by decide)

/-! ### Concrete fixtures -/

/-- `needle` occurs as a contiguous substring of `hay`. -/
abbrev containsStr (hay needle : String) : Prop := needle.data <:+: hay.data

/-- Module parameters with the alias and image name from the README. -/
def lokiParams (st : TState) (opts : Option OptionsMap) : Params :=
  ⟨some "grafana/loki-docker-driver:latest", "loki", opts, st, false⟩

/-- An engine with no injected failures whose plugin state is `pl`;
a fresh install produces a disabled plugin with empty settings. -/
def happyEngine (pl : Option EnginePlugin) : Engine :=
  ⟨pl, ⟨false, []⟩, none, none, none, none, none, none⟩

/-- Claim C1 (code bug at target_state=enabled): in check mode with no
existing plugin, (a) with target_state=enabled the run does NOT "still
compute and report what would change": it dies with an uncaught
AttributeError, because check mode skipped the install (leaving the
snapshot `None`) and `enable_plugin` then reads `.enabled` off `None`;
(b) the target_state=present scenario of the claim does hold: changed=true,
the install action is logged, and the only Gateway call is the initial
lookup. -/
theorem C1_check_mode_enabled_absent_crash :
    DockerPluginManager.run ⟨lokiParams TState.enabled none, true, false⟩ (happyEngine none) =
      Except.error attributeErrorMsg ∧
    (DockerPluginManager.run ⟨lokiParams TState.present none, true, false⟩
        (happyEngine none)).toOption.map (fun st => (st.changed, st.trace, st.actions)) =
      some (true, [GCall.lookup], [installedAction (lokiParams TState.present none)]) :=
  ⟨rfl, rfl⟩

/-- Claim C2 counterexample: with target_state=enabled, an existing
enabled plugin and matching configuration, the reconciliation does NOT
perform "no Gateway calls at all": the trace holds two lookup calls
(the constructor fetch and the `enable_plugin` re-fetch), though
`changed` is indeed false. -/
theorem C2_counterexample :
    (DockerPluginManager.run
        ⟨lokiParams TState.enabled (some [("LOG_LEVEL", some "INFO")]), false, false⟩
        (happyEngine (some ⟨true, ["LOG_LEVEL=INFO"]⟩))).toOption.map
      (fun st => (st.changed, st.trace)) =
      some (false, [GCall.lookup, GCall.lookup]) := rfl

/-- A run state whose snapshot is stale: the snapshot claims the plugin
is enabled while the live engine plugin is already disabled. -/
def staleSnapshotState : RunSt :=
  ⟨happyEngine (some ⟨false, []⟩), [], some ⟨true, []⟩, false, [], false, [], none⟩

/-- Claim C4 counterexample: the disable path does NOT re-fetch the
snapshot before its no-op-if-already-disabled check.  On a stale
snapshot (snapshot says enabled, live plugin already disabled) the
disable handler issues the disable call with no preceding lookup — had
it re-fetched as the claim states, it would have been a no-op. -/
theorem C4_counterexample :
    (DockerPluginManager.disable_plugin ⟨lokiParams TState.disabled none, false, false⟩
        true staleSnapshotState).toOption.map (fun st => (st.trace, st.changed)) =
      some ([GCall.disable], true) := rfl

/-- Claim C7 counterexample: in a check-mode run with
target_state=absent and an existing plugin, `remove` is NOT invoked
(the trace holds only the initial lookup), although `changed=true` is
reported — so "remove is invoked unconditionally" fails as stated. -/
theorem C7_counterexample :
    (DockerPluginManager.run ⟨lokiParams TState.absent none, true, false⟩
        (happyEngine (some ⟨true, []⟩))).toOption.map (fun st => (st.changed, st.trace)) =
      some (true, [GCall.lookup]) := rfl

/-- The engine whose lookup fails with transport error `boom`. -/
def lookupFailEngine : Engine :=
  ⟨none, ⟨false, []⟩, some "boom", none, none, none, none, none⟩

/-- Claim C8 counterexample: when the lookup operation fails, the run
aborts with `Failed to query existing plugins. boom` — a message that
does not include the plugin alias `loki`, contradicting "the error
message always includes both the plugin alias and the operation". -/
theorem C8_counterexample :
    DockerPluginManager.run ⟨lokiParams TState.present none, false, false⟩ lookupFailEngine =
      Except.error (lookupFailMsg "boom") ∧
    ¬ containsStr (lookupFailMsg "boom") "loki" :=
  ⟨rfl, by decide⟩

/-- Claim C9 counterexample: a target_state=absent run with check mode,
debug and diff all off still includes `actions` in the final result
(the absent handler never pops it), contradicting "actions is included
only when check-mode, debug, or diff was requested". -/
theorem C9_counterexample :
    (DockerPluginManager.run ⟨lokiParams TState.absent none, false, false⟩
        (happyEngine (some ⟨true, []⟩))).toOption.map
      (fun st => (st.actionsPopped, st.actions, st.resultsDiff.isSome)) =
      some (false, [removedAction (lokiParams TState.absent none)], false) := rfl

/-! ### The configuration difference computation (claims C10, C2) -/

/-- The desired configuration already matches the live settings: it is
absent/empty, or the live `Env` decodes to a non-empty dict in which
every desired key holds the desired value. -/
def configMatches (opts? : Option OptionsMap) (p : EnginePlugin) : Prop :=
  match opts? with
  | none => True
  | some opts =>
      opts = [] ∨
      ∃ ex, parse_options p.env = Except.ok ex ∧ ex ≠ [] ∧
        ∀ kv ∈ opts, lookupStr ex kv.1 = kv.2

theorem hdcStep_fold_nil (ex : StrMap) (opts : OptionsMap)
    (h : ∀ kv ∈ opts, lookupStr ex kv.1 = kv.2) :
    opts.foldl (DockerPluginManager.hdcStep ex) [] = [] := by
  have aux : ∀ (l : OptionsMap) (acc : List DiffRec),
      (∀ kv ∈ l, lookupStr ex kv.1 = kv.2) →
      l.foldl (DockerPluginManager.hdcStep ex) acc = acc := by
    intro l
    induction l with
    | nil => intro acc _; rfl
    | cons hd tl ih =>
      intro acc hl
      rw [List.foldl_cons]
      have hhd : lookupStr ex hd.1 = hd.2 := hl hd (List.mem_cons_self _ _)
      have hstep : DockerPluginManager.hdcStep ex acc hd = acc := by
        simp [DockerPluginManager.hdcStep, hhd]
      rw [hstep]
      exact ih acc (fun kv hkv => hl kv (List.mem_cons_of_mem _ hkv))
  exact aux opts [] h

theorem hdcStep_fold_keys (ex : StrMap) (opts : OptionsMap) :
    ∀ (acc : List DiffRec) (r : DiffRec), r ∈ opts.foldl (DockerPluginManager.hdcStep ex) acc →
      r ∈ acc ∨ ∃ kv ∈ opts, r.key = "plugin_options." ++ kv.1 := by
  induction opts with
  | nil => intro acc r hr; exact Or.inl hr
  | cons hd tl ih =>
    intro acc r hr
    rw [List.foldl_cons] at hr
    rcases ih (DockerPluginManager.hdcStep ex acc hd) r hr with hacc | ⟨kv, hkv, hkey⟩
    · by_cases hne : lookupStr ex hd.1 ≠ hd.2
      · rw [DockerPluginManager.hdcStep, if_pos hne] at hacc
        rcases List.mem_append.mp hacc with h1 | h2
        · exact Or.inl h1
        · refine Or.inr ⟨hd, List.mem_cons_self _ _, ?_⟩
          have : r = ⟨"plugin_options." ++ hd.1, DiffVal.vStr hd.2,
              DiffVal.vStr (lookupStr ex hd.1)⟩ := List.mem_singleton.mp h2
          rw [this]
      · rw [DockerPluginManager.hdcStep, if_neg hne] at hacc
        exact Or.inl hacc
    · exact Or.inr ⟨kv, List.mem_cons_of_mem _ hkv, hkey⟩

theorem configMatches_hdc (ctx : Ctx) (p : EnginePlugin)
    (h : configMatches ctx.params.plugin_options p) :
    DockerPluginManager.has_different_config ctx p = Except.ok [] := by
  rw [DockerPluginManager.has_different_config]
  cases hopts : ctx.params.plugin_options with
  | none => rfl
  | some opts =>
    rw [hopts] at h
    simp only [configMatches] at h
    rcases h with rfl | ⟨ex, hex, hne, hall⟩
    · simp
    · by_cases hemp : opts.isEmpty
      · simp [hemp]
      · simp only [hemp, Bool.false_eq_true, if_false, hex]
        have hexemp : ex.isEmpty = false := by
          cases ex with
          | nil => exact absurd rfl hne
          | cons a b => rfl
        simp only [hexemp, Bool.false_eq_true, if_false]
        rw [hdcStep_fold_nil ex opts hall]

/-- Claim C10 (confirmed): the difference computation is one-sided over
the desired keys: (a) an empty or absent desired configuration yields
no differences at all; (b) the key of every difference record is either the
blanket `plugin_options` record or `plugin_options.k` for a desired key
`k` — a key present only in the live settings never produces a record;
(c) when every desired key already holds the desired live value (and
the live settings decode non-empty), no differences are produced, so
live-only settings never by themselves trigger the update path. -/
theorem C10_config_diff_one_sided (ctx : Ctx) (p : EnginePlugin) :
    ((ctx.params.plugin_options = none ∨ ctx.params.plugin_options = some []) →
      DockerPluginManager.has_different_config ctx p = Except.ok []) ∧
    (∀ d, DockerPluginManager.has_different_config ctx p = Except.ok d → ∀ r ∈ d,
      r.key = "plugin_options" ∨
      (ctx.params.plugin_options.getD []).any
        (fun kv => r.key == "plugin_options." ++ kv.1) = true) ∧
    (configMatches ctx.params.plugin_options p →
      DockerPluginManager.has_different_config ctx p = Except.ok []) := by
  refine ⟨?_, ?_, configMatches_hdc ctx p⟩
  · rintro (h | h)
    · rw [DockerPluginManager.has_different_config, h]
    · rw [DockerPluginManager.has_different_config, h]
      simp
  · intro d hd r hr
    rw [DockerPluginManager.has_different_config] at hd
    cases hopts : ctx.params.plugin_options with
    | none =>
      rw [hopts] at hd
      simp only [Except.ok.injEq] at hd
      subst hd
      exact absurd hr (List.not_mem_nil r)
    | some opts =>
      rw [hopts] at hd
      dsimp only at hd
      by_cases hemp : opts.isEmpty
      · rw [if_pos hemp] at hd
        simp only [Except.ok.injEq] at hd
        subst hd
        exact absurd hr (List.not_mem_nil r)
      · rw [if_neg hemp] at hd
        cases hpe : parse_options p.env with
        | error e => rw [hpe] at hd; exact absurd hd (by simp)
        | ok ex =>
          rw [hpe] at hd
          dsimp only at hd
          by_cases hexemp : ex.isEmpty
          · rw [if_pos hexemp] at hd
            simp only [Except.ok.injEq] at hd
            subst hd
            have : r = ⟨"plugin_options", DiffVal.vOptMap (some opts),
                DiffVal.vStrMap ex⟩ := List.mem_singleton.mp hr
            exact Or.inl (by rw [this])
          · rw [if_neg hexemp] at hd
            simp only [Except.ok.injEq] at hd
            subst hd
            rcases hdcStep_fold_keys ex opts [] r hr with habs | ⟨kv, hkv, hkey⟩
            · exact absurd habs (List.not_mem_nil r)
            · refine Or.inr ?_
              simp only [Option.getD_some, List.any_eq_true]
              exact ⟨kv, hkv, by simp [hkey]⟩

/-- Claim C10 witness: with desired `\x7bA: 1\x7d` and live settings
holding both `A=1` and a live-only `B=2`, no differences are produced. -/
theorem C10_config_diff_witness :
    DockerPluginManager.has_different_config
      ⟨lokiParams TState.present (some [("A", some "1")]), false, false⟩
      ⟨true, ["A=1", "B=2"]⟩ = Except.ok [] :=
  (C10_config_diff_one_sided
      ⟨lokiParams TState.present (some [("A", some "1")]), false, false⟩
      ⟨true, ["A=1", "B=2"]⟩).2.2
    (Or.inr ⟨[("A", "1"), ("B", "2")], rfl, by decide, by decide⟩)

/-! ### Snapshot re-fetching (claim C4) -/

theorem enable_plugin_trace (ctx : Ctx) (b : Bool) (st st' : RunSt)
    (h : DockerPluginManager.enable_plugin ctx b st = Except.ok st') :
    (∃ r, st'.trace = st.trace ++ [GCall.lookup] ++ r) ∧
    st'.actionsPopped = st.actionsPopped ∧ st'.resultsDiff = st.resultsDiff := by
  rw [DockerPluginManager.enable_plugin, DockerPluginManager.get_existing_plugin] at h
  cases hlf : st.engine.lookupOp with
  | error e => rw [hlf] at h; exact absurd h (by simp)
  | ok po =>
    rw [hlf] at h
    dsimp only at h
    cases po with
    | none => exact absurd h (by simp)
    | some p =>
      dsimp only at h
      by_cases hpe : p.enabled = true
      · rw [if_pos hpe] at h
        injection h with h
        exact ⟨⟨[], by rw [← h]; simp⟩, by rw [← h], by rw [← h]⟩
      · rw [if_neg hpe] at h
        by_cases hcm : ctx.check_mode = true
        · rw [if_pos hcm] at h
          dsimp only at h
          cases b with
          | true =>
            rw [if_pos rfl] at h
            injection h with h
            exact ⟨⟨[], by rw [← h]; simp⟩, by rw [← h], by rw [← h]⟩
          | false =>
            rw [if_neg (by simp)] at h
            injection h with h
            exact ⟨⟨[], by rw [← h]; simp⟩, by rw [← h], by rw [← h]⟩
        · rw [if_neg hcm] at h
          cases hef : st.engine.enableOp with
          | error e =>
            simp only [hef] at h
            exact absurd h (by simp)
          | ok eng =>
            simp only [hef] at h
            cases b with
            | true =>
              rw [if_pos rfl] at h
              injection h with h
              exact ⟨⟨[GCall.enable 1], by rw [← h]⟩, by rw [← h], by rw [← h]⟩
            | false =>
              rw [if_neg (by simp)] at h
              injection h with h
              exact ⟨⟨[GCall.enable 1], by rw [← h]⟩, by rw [← h], by rw [← h]⟩

theorem disable_plugin_trace (ctx : Ctx) (b : Bool) (st st' : RunSt)
    (h : DockerPluginManager.disable_plugin ctx b st = Except.ok st') :
    (st'.trace = st.trace ∨ st'.trace = st.trace ++ [GCall.disable]) ∧
    st'.actionsPopped = st.actionsPopped ∧ st'.resultsDiff = st.resultsDiff := by
  rw [DockerPluginManager.disable_plugin] at h
  cases hsnap : st.existing_plugin with
  | none =>
    rw [hsnap] at h
    injection h with h
    exact ⟨Or.inl (by rw [← h]), by rw [← h], by rw [← h]⟩
  | some p =>
    rw [hsnap] at h
    dsimp only at h
    by_cases hpe : p.enabled = true
    · rw [if_pos hpe] at h
      by_cases hcm : ctx.check_mode = true
      · rw [if_pos hcm] at h
        dsimp only at h
        cases b with
        | true =>
          rw [if_pos rfl] at h
          injection h with h
          exact ⟨Or.inl (by rw [← h]), by rw [← h], by rw [← h]⟩
        | false =>
          rw [if_neg (by simp)] at h
          injection h with h
          exact ⟨Or.inl (by rw [← h]), by rw [← h], by rw [← h]⟩
      · rw [if_neg hcm] at h
        cases hdf : st.engine.disableOp with
        | error e =>
          simp only [hdf] at h
          exact absurd h (by simp)
        | ok eng =>
          simp only [hdf] at h
          cases b with
          | true =>
            rw [if_pos rfl] at h
            injection h with h
            exact ⟨Or.inr (by rw [← h]), by rw [← h], by rw [← h]⟩
          | false =>
            rw [if_neg (by simp)] at h
            injection h with h
            exact ⟨Or.inr (by rw [← h]), by rw [← h], by rw [← h]⟩
    · rw [if_neg hpe] at h
      injection h with h
      exact ⟨Or.inl (by rw [← h]), by rw [← h], by rw [← h]⟩

/-- Claim C4 (amended): only the ENABLE path re-fetches the snapshot
before deciding on its enabled flag — its trace extension begins with a
lookup call.  The disable path performs NO re-fetch: it decides the
no-op-if-already-disabled check on the snapshot taken at construction
time, and its trace extension (empty or a single disable call) contains
no lookup. -/
theorem C4_refetch_asymmetry (ctx : Ctx) (b : Bool) (st st₁ st₂ : RunSt)
    (h₁ : DockerPluginManager.enable_plugin ctx b st = Except.ok st₁)
    (h₂ : DockerPluginManager.disable_plugin ctx b st = Except.ok st₂) :
    st₁.trace.take (st.trace.length + 1) = st.trace ++ [GCall.lookup] ∧
    st₂.trace.take st.trace.length = st.trace ∧
    GCall.lookup ∉ st₂.trace.drop st.trace.length := by
  obtain ⟨r, hr⟩ := (enable_plugin_trace ctx b st st₁ h₁).1
  refine ⟨?_, ?_, ?_⟩
  · rw [hr, List.append_assoc, ← List.append_assoc]
    exact List.take_left' (by simp)
  · rcases (disable_plugin_trace ctx b st st₂ h₂).1 with h | h
    · rw [h, List.take_length]
    · rw [h]; exact List.take_left' rfl
  · rcases (disable_plugin_trace ctx b st st₂ h₂).1 with h | h
    · rw [h, List.drop_length]; exact List.not_mem_nil _
    · rw [h, List.drop_left]; simp

/-- A fresh, consistent run state: snapshot and engine agree that the
plugin exists and is enabled; no failures; empty trace. -/
def consistentState : RunSt :=
  ⟨happyEngine (some ⟨true, []⟩), [], some ⟨true, []⟩, false, [], false, [], none⟩

/-- The state `enable_plugin` produces from `consistentState` (one
re-fetch, already enabled, no engine call). -/
def c4EnableResult : RunSt :=
  ⟨happyEngine (some ⟨true, []⟩), [GCall.lookup], some ⟨true, []⟩, false, [], false, [], none⟩

/-- The state `disable_plugin` produces from `consistentState` (no
re-fetch, one disable call, action logged). -/
def c4DisableResult : RunSt :=
  ⟨⟨some ⟨false, []⟩, ⟨false, []⟩, none, none, none, none, none, none⟩,
    [GCall.disable], some ⟨true, []⟩, true,
    [disabledAction (lokiParams TState.disabled none)], false, [], none⟩

/-- Claim C4 witness: the amended statement at a concrete consistent
state. -/
theorem C4_refetch_witness :
    ([GCall.lookup] : List GCall).take 1 = [] ++ [GCall.lookup] ∧
    ([GCall.disable] : List GCall).take 0 = [] ∧
    GCall.lookup ∉ ([GCall.disable] : List GCall).drop 0 :=
  C4_refetch_asymmetry ⟨lokiParams TState.disabled none, false, false⟩ true
    consistentState c4EnableResult c4DisableResult rfl rfl

/-! ### Frame lemmas: the plugin sub-methods never touch the popped
flag or the results diff entry -/

theorem get_existing_plugin_frame (st : RunSt) (po : Option EnginePlugin) (st' : RunSt)
    (h : DockerPluginManager.get_existing_plugin st = Except.ok (po, st')) :
    st'.actionsPopped = st.actionsPopped ∧ st'.resultsDiff = st.resultsDiff := by
  rw [DockerPluginManager.get_existing_plugin] at h
  split at h
  · exact absurd h (by simp)
  · injection h with h
    have h2 := congrArg Prod.snd h
    dsimp only at h2
    exact ⟨by rw [← h2], by rw [← h2]⟩

theorem install_plugin_frame (ctx : Ctx) (st st' : RunSt)
    (h : DockerPluginManager.install_plugin ctx st = Except.ok st') :
    st'.actionsPopped = st.actionsPopped ∧ st'.resultsDiff = st.resultsDiff := by
  rw [DockerPluginManager.install_plugin] at h
  cases hsnap : st.existing_plugin with
  | some p =>
    rw [hsnap] at h
    injection h with h
    exact ⟨by rw [← h], by rw [← h]⟩
  | none =>
    rw [hsnap] at h
    dsimp only at h
    by_cases hcm : ctx.check_mode = true
    · rw [if_pos hcm] at h
      injection h with h
      exact ⟨by rw [← h], by rw [← h]⟩
    · rw [if_neg hcm] at h
      cases hio : st.engine.installOp with
      | error e =>
        simp only [hio] at h
        exact absurd h (by simp)
      | ok pe =>
        simp only [hio] at h
        injection h with h
        exact ⟨by rw [← h], by rw [← h]⟩

theorem remove_plugin_frame (ctx : Ctx) (st st' : RunSt)
    (h : DockerPluginManager.remove_plugin ctx st = Except.ok st') :
    st'.actionsPopped = st.actionsPopped ∧ st'.resultsDiff = st.resultsDiff := by
  rw [DockerPluginManager.remove_plugin] at h
  cases hsnap : st.existing_plugin with
  | none =>
    rw [hsnap] at h
    injection h with h
    exact ⟨by rw [← h], by rw [← h]⟩
  | some p =>
    rw [hsnap] at h
    dsimp only at h
    by_cases hcm : ctx.check_mode = true
    · rw [if_pos hcm] at h
      injection h with h
      exact ⟨by rw [← h], by rw [← h]⟩
    · rw [if_neg hcm] at h
      cases hro : st.engine.removeOp with
      | error e =>
        simp only [hro] at h
        exact absurd h (by simp)
      | ok eng =>
        simp only [hro] at h
        injection h with h
        exact ⟨by rw [← h], by rw [← h]⟩

theorem update_plugin_frame (ctx : Ctx) (st st' : RunSt)
    (h : DockerPluginManager.update_plugin ctx st = Except.ok st') :
    st'.actionsPopped = st.actionsPopped ∧ st'.resultsDiff = st.resultsDiff := by
  rw [DockerPluginManager.update_plugin] at h
  dsimp only at h
  by_cases hcm : ctx.check_mode = true
  · rw [if_pos hcm] at h
    dsimp only at h
    injection h with h
    exact ⟨by rw [← h], by rw [← h]⟩
  · rw [if_neg hcm] at h
    cases hsnap : st.existing_plugin with
    | none =>
      rw [hsnap] at h
      dsimp only at h
      exact absurd h (by simp)
    | some p =>
      rw [hsnap] at h
      dsimp only at h
      by_cases hpe : p.enabled = true
      · rw [if_pos hpe] at h
        cases hd : DockerPluginManager.disable_plugin ctx false st with
        | error e =>
          rw [hd] at h
          exact absurd h (by simp)
        | ok stA =>
          rw [hd] at h
          dsimp only at h
          have hA := (disable_plugin_trace ctx false st stA hd).2
          cases hco : stA.engine.configureOp (prepare_options ctx.params.plugin_options) with
          | error e =>
            rw [hco] at h
            exact absurd h (by simp)
          | ok eng =>
            rw [hco] at h
            dsimp only at h
            by_cases hste : ctx.params.state = TState.enabled
            · rw [if_pos hste] at h
              split at h
              · exact absurd h (by simp)
              next stD heq =>
                injection h with h
                have hD := (enable_plugin_trace ctx false _ stD heq).2
                exact ⟨by rw [← h]; exact hD.1.trans hA.1,
                  by rw [← h]; exact hD.2.trans hA.2⟩
            · rw [if_neg hste] at h
              injection h with h
              exact ⟨by rw [← h]; exact hA.1, by rw [← h]; exact hA.2⟩
      · rw [if_neg hpe] at h
        dsimp only at h
        cases hco : st.engine.configureOp (prepare_options ctx.params.plugin_options) with
        | error e =>
          rw [hco] at h
          exact absurd h (by simp)
        | ok eng =>
          rw [hco] at h
          dsimp only at h
          by_cases hste : ctx.params.state = TState.enabled
          · rw [if_pos hste] at h
            split at h
            · exact absurd h (by simp)
            next stD heq =>
              injection h with h
              have hD := (enable_plugin_trace ctx false _ stD heq).2
              exact ⟨by rw [← h]; exact hD.1, by rw [← h]; exact hD.2⟩
          · rw [if_neg hste] at h
            injection h with h
            exact ⟨by rw [← h], by rw [← h]⟩

theorem gate_tail (c1 c2 : Bool) (differences : List DiffRec) (st2 st' : RunSt)
    (hf1 : st2.actionsPopped = false) (hf2 : st2.resultsDiff = none)
    (h : ((if c2 = true then
            Except.ok ({ (if c1 = true then
                { st2 with resultsDiff := some (PyDiff.legacy differences),
                           diff_tracker := st2.diff_tracker ++ differences }
              else st2) with actionsPopped := true } : RunSt)
          else Except.ok (if c1 = true then
                { st2 with resultsDiff := some (PyDiff.legacy differences),
                           diff_tracker := st2.diff_tracker ++ differences }
              else st2)) : Except String RunSt) = Except.ok st') :
    st'.actionsPopped = c2 ∧ st'.resultsDiff.isSome = c1 := by
  cases c2 with
  | true =>
    rw [if_pos rfl] at h
    injection h with h
    subst h
    cases c1 with
    | true => simp
    | false => simp [hf2]
  | false =>
    rw [if_neg (by simp)] at h
    injection h with h
    subst h
    cases c1 with
    | true => simp [hf1]
    | false => simp [hf1, hf2]

theorem present_gating (ctx : Ctx) (st st' : RunSt)
    (h : DockerPluginManager.present ctx st = Except.ok st')
    (hpop : st.actionsPopped = false) (hrd : st.resultsDiff = none) :
    st'.actionsPopped = (!ctx.check_mode && !ctx.params.debug) ∧
    st'.resultsDiff.isSome = (ctx.diff || ctx.check_mode || ctx.params.debug) := by
  rw [DockerPluginManager.present] at h
  cases hsnap : st.existing_plugin with
  | none =>
    rw [hsnap] at h
    dsimp only at h
    rw [if_pos (show (List.isEmpty ([] : List DiffRec)) = true from rfl)] at h
    split at h
    · exact absurd h (by simp)
    next st2 heq =>
      have hfr := install_plugin_frame ctx _ st2 heq
      exact gate_tail _ _ _ st2 st' (hfr.1.trans hpop) (hfr.2.trans hrd) h
  | some p =>
    rw [hsnap] at h
    dsimp only at h
    cases hhd : DockerPluginManager.has_different_config ctx p with
    | error e =>
      rw [hhd] at h
      exact absurd h (by simp)
    | ok differences =>
      rw [hhd] at h
      dsimp only at h
      by_cases hde : differences.isEmpty = true
      · rw [if_pos hde] at h
        split at h
        · exact absurd h (by simp)
        next st2 heq =>
          have hfr := install_plugin_frame ctx _ st2 heq
          exact gate_tail _ _ _ st2 st' (hfr.1.trans hpop) (hfr.2.trans hrd) h
      · rw [if_neg hde] at h
        split at h
        · exact absurd h (by simp)
        next st2 heq =>
          have hfr := update_plugin_frame ctx _ st2 heq
          exact gate_tail _ _ _ st2 st' (hfr.1.trans hpop) (hfr.2.trans hrd) h

theorem enable_gating (ctx : Ctx) (st st' : RunSt)
    (h : DockerPluginManager.enable ctx st = Except.ok st')
    (hpop : st.actionsPopped = false) (hrd : st.resultsDiff = none) :
    st'.actionsPopped = (!ctx.check_mode && !ctx.params.debug) ∧
    st'.resultsDiff.isSome = (ctx.diff || ctx.check_mode || ctx.params.debug) := by
  rw [DockerPluginManager.enable] at h
  cases hsnap : st.existing_plugin with
  | none =>
    rw [hsnap] at h
    dsimp only at h
    rw [if_pos (show (List.isEmpty ([] : List DiffRec)) = true from rfl)] at h
    split at h
    · exact absurd h (by simp)
    next st2 heq =>
      split at heq
      · exact absurd heq (by simp)
      next stI heqI =>
        have hfrI := install_plugin_frame ctx _ stI heqI
        have hfrE := (enable_plugin_trace ctx true stI st2 heq).2
        exact gate_tail _ _ _ st2 st'
          (hfrE.1.trans (hfrI.1.trans hpop)) (hfrE.2.trans (hfrI.2.trans hrd)) h
  | some p =>
    rw [hsnap] at h
    dsimp only at h
    cases hhd : DockerPluginManager.has_different_config ctx p with
    | error e =>
      rw [hhd] at h
      exact absurd h (by simp)
    | ok differences =>
      rw [hhd] at h
      dsimp only at h
      by_cases hde : differences.isEmpty = true
      · rw [if_pos hde] at h
        split at h
        · exact absurd h (by simp)
        next st2 heq =>
          split at heq
          · exact absurd heq (by simp)
          next stI heqI =>
            have hfrI := install_plugin_frame ctx _ stI heqI
            have hfrE := (enable_plugin_trace ctx true stI st2 heq).2
            exact gate_tail _ _ _ st2 st'
              (hfrE.1.trans (hfrI.1.trans hpop)) (hfrE.2.trans (hfrI.2.trans hrd)) h
      · rw [if_neg hde] at h
        split at h
        · exact absurd h (by simp)
        next st2 heq =>
          have hfr := update_plugin_frame ctx _ st2 heq
          exact gate_tail _ _ _ st2 st' (hfr.1.trans hpop) (hfr.2.trans hrd) h

/-- Claim C9 (amended): the `diff` entry is included in the final
result iff check mode, debug, or a diff was requested — that part of
the claim is right.  The `actions` entry, however, is popped from the
results exactly when the handler was `present` or `enabled` AND neither
check mode nor debug is on: a diff request alone does not retain
`actions` on those paths, and the `absent` and `disabled` handlers
never pop it, so `actions` is always included there. -/
theorem C9_actions_diff_gating (ctx : Ctx) (eng : Engine) (st : RunSt)
    (h : DockerPluginManager.run ctx eng = Except.ok st) :
    st.resultsDiff.isSome = (ctx.diff || ctx.check_mode || ctx.params.debug) ∧
    st.actionsPopped = ((decide (ctx.params.state = TState.present) ||
        decide (ctx.params.state = TState.enabled)) &&
        (!ctx.check_mode && !ctx.params.debug)) := by
  rw [DockerPluginManager.run, DockerPluginManager.get_existing_plugin] at h
  dsimp only at h
  cases hlf : eng.lookupFail with
  | some e =>
    simp only [Engine.lookupOp, hlf] at h
    exact absurd h (by simp)
  | none =>
    simp only [Engine.lookupOp, hlf] at h
    have tailStep : ∀ st2 : RunSt,
        ((if (ctx.diff || ctx.check_mode || ctx.params.debug) = true then
          Except.ok ({ st2 with resultsDiff := some (PyDiff.finalDiff (if ctx.diff = true then some (get_before_after st2.diff_tracker) else none)) } : RunSt)
        else Except.ok st2) : Except String RunSt) = Except.ok st →
        st.actionsPopped = st2.actionsPopped ∧
        st.resultsDiff.isSome = (ctx.diff || ctx.check_mode || ctx.params.debug) ∨
        st.actionsPopped = st2.actionsPopped ∧
        st.resultsDiff = st2.resultsDiff ∧
        (ctx.diff || ctx.check_mode || ctx.params.debug) = false := by
      intro st2 htail
      by_cases hc : (ctx.diff || ctx.check_mode || ctx.params.debug) = true
      · rw [if_pos hc] at htail
        injection htail with htail
        subst htail
        exact Or.inl ⟨rfl, by simp [hc]⟩
      · rw [if_neg hc] at htail
        injection htail with htail
        subst htail
        exact Or.inr ⟨rfl, rfl, by simp at hc; simp [hc]⟩
    cases hstate : ctx.params.state with
    | present =>
      simp only [hstate] at h
      split at h
      · exact absurd h (by simp)
      next st2 heq =>
        have hg := present_gating ctx _ st2 heq rfl rfl
        rcases tailStep st2 h with ⟨hp, hd⟩ | ⟨hp, hd, hc⟩
        · refine ⟨hd, ?_⟩
          rw [hp, hg.1]
          simp
        · refine ⟨?_, ?_⟩
          · rw [hd, hg.2, hc]
          · rw [hp, hg.1]
            simp
    | enabled =>
      simp only [hstate] at h
      split at h
      · exact absurd h (by simp)
      next st2 heq =>
        have hg := enable_gating ctx _ st2 heq rfl rfl
        rcases tailStep st2 h with ⟨hp, hd⟩ | ⟨hp, hd, hc⟩
        · refine ⟨hd, ?_⟩
          rw [hp, hg.1]
          simp
        · refine ⟨?_, ?_⟩
          · rw [hd, hg.2, hc]
          · rw [hp, hg.1]
            simp
    | absent =>
      simp only [hstate] at h
      rw [DockerPluginManager.absent] at h
      split at h
      · exact absurd h (by simp)
      next st2 heq =>
        have hg := remove_plugin_frame ctx _ st2 heq
        rcases tailStep st2 h with ⟨hp, hd⟩ | ⟨hp, hd, hc⟩
        · refine ⟨hd, ?_⟩
          rw [hp, hg.1]
          simp
        · refine ⟨?_, ?_⟩
          · rw [hd, hg.2, hc]
            simp
          · rw [hp, hg.1]
            simp
    | disabled =>
      simp only [hstate] at h
      rw [DockerPluginManager.disable] at h
      split at h
      · exact absurd h (by simp)
      next st2 heq =>
        have hg := (disable_plugin_trace ctx true _ st2 heq).2
        rcases tailStep st2 h with ⟨hp, hd⟩ | ⟨hp, hd, hc⟩
        · refine ⟨hd, ?_⟩
          rw [hp, hg.1]
          simp
        · refine ⟨?_, ?_⟩
          · rw [hd, hg.2, hc]
            simp
          · rw [hp, hg.1]
            simp

/-- The result state of a disabled-target run with no plugin and no
flags set. -/
def c9WitnessSt : RunSt :=
  ⟨happyEngine none, [GCall.lookup], none, false, [], false, [], none⟩

/-- Claim C9 witness: the amended statement at a concrete run
(target_state=disabled, no flags): diff omitted, actions not popped. -/
theorem C9_actions_diff_gating_witness :
    c9WitnessSt.resultsDiff.isSome = (false || false || false) ∧
    c9WitnessSt.actionsPopped = ((decide ((TState.disabled : TState) = TState.present) ||
        decide ((TState.disabled : TState) = TState.enabled)) && (!false && !false)) :=
  C9_actions_diff_gating ⟨lokiParams TState.disabled none, false, false⟩
    (happyEngine none) c9WitnessSt rfl

/-! ### Error propagation (claim C8) -/

/-- The message of a failed run is one of the failure
messages: a wrapped Gateway failure for one of the six operations, the
`AttributeError` crash, or the malformed-option decode error. -/
def gatewayErrMsg (p : Params) (msg : String) : Prop :=
  (∃ e, msg = lookupFailMsg e) ∨ (∃ e, msg = installFailMsg p e) ∨
  (∃ e, msg = removeFailMsg p e) ∨ (∃ e, msg = enableFailMsg p e) ∨
  (∃ e, msg = disableFailMsg p e) ∨ (∃ e, msg = configureFailMsg p e) ∨
  msg = attributeErrorMsg ∨ msg = malformedOptionMsg

theorem parse_fold_error_val (l : List String) :
    ∀ (d : StrMap) (e : String), parse_fold d l = Except.error e → e = malformedOptionMsg := by
  induction l with
  | nil =>
    intro d e h
    exact absurd h (by simp [parse_fold])
  | cons s rest ih =>
    intro d e h
    rw [parse_fold] at h
    cases hs : splitFirstEq s.data with
    | some kv =>
      rw [hs] at h
      exact ih _ e h
    | none =>
      rw [hs] at h
      injection h with h
      exact h.symm

theorem parse_options_error_val (l : List String) (e : String)
    (h : parse_options l = Except.error e) : e = malformedOptionMsg := by
  rw [parse_options] at h
  by_cases hl : l.isEmpty = true
  · rw [if_pos hl] at h
    exact absurd h (by simp)
  · rw [if_neg hl] at h
    exact parse_fold_error_val l [] e h

theorem hdc_error_val (ctx : Ctx) (p : EnginePlugin) (e : String)
    (h : DockerPluginManager.has_different_config ctx p = Except.error e) :
    e = malformedOptionMsg := by
  rw [DockerPluginManager.has_different_config] at h
  cases hopts : ctx.params.plugin_options with
  | none =>
    rw [hopts] at h
    exact absurd h (by simp)
  | some opts =>
    rw [hopts] at h
    dsimp only at h
    by_cases hemp : opts.isEmpty = true
    · rw [if_pos hemp] at h
      exact absurd h (by simp)
    · rw [if_neg hemp] at h
      cases hpe : parse_options p.env with
      | error e2 =>
        rw [hpe] at h
        injection h with h
        exact h.symm.trans (parse_options_error_val p.env e2 hpe)
      | ok ex =>
        rw [hpe] at h
        dsimp only at h
        by_cases hexemp : ex.isEmpty = true
        · rw [if_pos hexemp] at h
          exact absurd h (by simp)
        · rw [if_neg hexemp] at h
          exact absurd h (by simp)

theorem get_existing_plugin_error (st : RunSt) (msg : String)
    (h : DockerPluginManager.get_existing_plugin st = Except.error msg) :
    ∃ e, msg = lookupFailMsg e := by
  rw [DockerPluginManager.get_existing_plugin] at h
  cases hlf : st.engine.lookupOp with
  | error e =>
    rw [hlf] at h
    injection h with h
    exact ⟨e, h.symm⟩
  | ok po =>
    rw [hlf] at h
    exact absurd h (by simp)

theorem install_plugin_error (ctx : Ctx) (st : RunSt) (msg : String)
    (h : DockerPluginManager.install_plugin ctx st = Except.error msg) :
    gatewayErrMsg ctx.params msg := by
  rw [DockerPluginManager.install_plugin] at h
  cases hsnap : st.existing_plugin with
  | some p =>
    rw [hsnap] at h
    exact absurd h (by simp)
  | none =>
    rw [hsnap] at h
    dsimp only at h
    by_cases hcm : ctx.check_mode = true
    · rw [if_pos hcm] at h
      exact absurd h (by simp)
    · rw [if_neg hcm] at h
      cases hio : st.engine.installOp with
      | error e =>
        simp only [hio] at h
        injection h with h
        exact Or.inr (Or.inl ⟨e, h.symm⟩)
      | ok pe =>
        simp only [hio] at h
        exact absurd h (by simp)

theorem remove_plugin_error (ctx : Ctx) (st : RunSt) (msg : String)
    (h : DockerPluginManager.remove_plugin ctx st = Except.error msg) :
    gatewayErrMsg ctx.params msg := by
  rw [DockerPluginManager.remove_plugin] at h
  cases hsnap : st.existing_plugin with
  | none =>
    rw [hsnap] at h
    exact absurd h (by simp)
  | some p =>
    rw [hsnap] at h
    dsimp only at h
    by_cases hcm : ctx.check_mode = true
    · rw [if_pos hcm] at h
      exact absurd h (by simp)
    · rw [if_neg hcm] at h
      cases hro : st.engine.removeOp with
      | error e =>
        simp only [hro] at h
        injection h with h
        exact Or.inr (Or.inr (Or.inl ⟨e, h.symm⟩))
      | ok eng =>
        simp only [hro] at h
        exact absurd h (by simp)

theorem enable_plugin_error (ctx : Ctx) (b : Bool) (st : RunSt) (msg : String)
    (h : DockerPluginManager.enable_plugin ctx b st = Except.error msg) :
    gatewayErrMsg ctx.params msg := by
  rw [DockerPluginManager.enable_plugin, DockerPluginManager.get_existing_plugin] at h
  cases hlf : st.engine.lookupOp with
  | error e =>
    rw [hlf] at h
    injection h with h
    exact Or.inl ⟨e, h.symm⟩
  | ok po =>
    rw [hlf] at h
    dsimp only at h
    cases po with
    | none =>
      injection h with h
      exact Or.inr (Or.inr (Or.inr (Or.inr (Or.inr (Or.inr (Or.inl h.symm))))))
    | some p =>
      dsimp only at h
      by_cases hpe : p.enabled = true
      · rw [if_pos hpe] at h
        exact absurd h (by simp)
      · rw [if_neg hpe] at h
        by_cases hcm : ctx.check_mode = true
        · rw [if_pos hcm] at h
          dsimp only at h
          cases b with
          | true => rw [if_pos rfl] at h; exact absurd h (by simp)
          | false => rw [if_neg (by simp)] at h; exact absurd h (by simp)
        · rw [if_neg hcm] at h
          cases hef : st.engine.enableOp with
          | error e =>
            simp only [hef] at h
            injection h with h
            exact Or.inr (Or.inr (Or.inr (Or.inl ⟨e, h.symm⟩)))
          | ok eng =>
            simp only [hef] at h
            cases b with
            | true => rw [if_pos rfl] at h; exact absurd h (by simp)
            | false => rw [if_neg (by simp)] at h; exact absurd h (by simp)

theorem disable_plugin_error (ctx : Ctx) (b : Bool) (st : RunSt) (msg : String)
    (h : DockerPluginManager.disable_plugin ctx b st = Except.error msg) :
    gatewayErrMsg ctx.params msg := by
  rw [DockerPluginManager.disable_plugin] at h
  cases hsnap : st.existing_plugin with
  | none =>
    rw [hsnap] at h
    exact absurd h (by simp)
  | some p =>
    rw [hsnap] at h
    dsimp only at h
    by_cases hpe : p.enabled = true
    · rw [if_pos hpe] at h
      by_cases hcm : ctx.check_mode = true
      · rw [if_pos hcm] at h
        dsimp only at h
        cases b with
        | true => rw [if_pos rfl] at h; exact absurd h (by simp)
        | false => rw [if_neg (by simp)] at h; exact absurd h (by simp)
      · rw [if_neg hcm] at h
        cases hdf : st.engine.disableOp with
        | error e =>
          simp only [hdf] at h
          injection h with h
          exact Or.inr (Or.inr (Or.inr (Or.inr (Or.inl ⟨e, h.symm⟩))))
        | ok eng =>
          simp only [hdf] at h
          cases b with
          | true => rw [if_pos rfl] at h; exact absurd h (by simp)
          | false => rw [if_neg (by simp)] at h; exact absurd h (by simp)
    · rw [if_neg hpe] at h
      exact absurd h (by simp)

theorem update_plugin_error (ctx : Ctx) (st : RunSt) (msg : String)
    (h : DockerPluginManager.update_plugin ctx st = Except.error msg) :
    gatewayErrMsg ctx.params msg := by
  rw [DockerPluginManager.update_plugin] at h
  dsimp only at h
  by_cases hcm : ctx.check_mode = true
  · rw [if_pos hcm] at h
    dsimp only at h
    exact absurd h (by simp)
  · rw [if_neg hcm] at h
    cases hsnap : st.existing_plugin with
    | none =>
      rw [hsnap] at h
      dsimp only at h
      injection h with h
      exact Or.inr (Or.inr (Or.inr (Or.inr (Or.inr (Or.inr (Or.inl h.symm))))))
    | some p =>
      rw [hsnap] at h
      dsimp only at h
      by_cases hpe : p.enabled = true
      · rw [if_pos hpe] at h
        cases hd : DockerPluginManager.disable_plugin ctx false st with
        | error e =>
          rw [hd] at h
          injection h with h
          exact h ▸ disable_plugin_error ctx false st e hd
        | ok stA =>
          rw [hd] at h
          dsimp only at h
          cases hco : stA.engine.configureOp (prepare_options ctx.params.plugin_options) with
          | error e =>
            rw [hco] at h
            injection h with h
            exact Or.inr (Or.inr (Or.inr (Or.inr (Or.inr (Or.inl ⟨e, h.symm⟩)))))
          | ok eng =>
            rw [hco] at h
            dsimp only at h
            by_cases hste : ctx.params.state = TState.enabled
            · rw [if_pos hste] at h
              split at h
              next e2 heq =>
                injection h with h
                exact h ▸ enable_plugin_error ctx false _ e2 heq
              next stD heq =>
                exact absurd h (by simp)
            · rw [if_neg hste] at h
              exact absurd h (by simp)
      · rw [if_neg hpe] at h
        dsimp only at h
        cases hco : st.engine.configureOp (prepare_options ctx.params.plugin_options) with
        | error e =>
          rw [hco] at h
          injection h with h
          exact Or.inr (Or.inr (Or.inr (Or.inr (Or.inr (Or.inl ⟨e, h.symm⟩)))))
        | ok eng =>
          rw [hco] at h
          dsimp only at h
          by_cases hste : ctx.params.state = TState.enabled
          · rw [if_pos hste] at h
            split at h
            next e2 heq =>
              injection h with h
              exact h ▸ enable_plugin_error ctx false _ e2 heq
            next stD heq =>
              exact absurd h (by simp)
          · rw [if_neg hste] at h
            exact absurd h (by simp)

theorem present_error (ctx : Ctx) (st : RunSt) (msg : String)
    (h : DockerPluginManager.present ctx st = Except.error msg) :
    gatewayErrMsg ctx.params msg := by
  rw [DockerPluginManager.present] at h
  cases hsnap : st.existing_plugin with
  | none =>
    rw [hsnap] at h
    dsimp only at h
    rw [if_pos (show (List.isEmpty ([] : List DiffRec)) = true from rfl)] at h
    split at h
    next e2 heq =>
      injection h with h
      exact h ▸ install_plugin_error ctx _ e2 heq
    next st2 heq =>
      split at h <;> exact absurd h (by simp)
  | some p =>
    rw [hsnap] at h
    dsimp only at h
    cases hhd : DockerPluginManager.has_different_config ctx p with
    | error e =>
      rw [hhd] at h
      injection h with h
      refine Or.inr (Or.inr (Or.inr (Or.inr (Or.inr (Or.inr (Or.inr ?_))))))
      exact h.symm.trans (hdc_error_val ctx p e hhd)
    | ok differences =>
      rw [hhd] at h
      dsimp only at h
      by_cases hde : differences.isEmpty = true
      · rw [if_pos hde] at h
        split at h
        next e2 heq =>
          injection h with h
          exact h ▸ install_plugin_error ctx _ e2 heq
        next st2 heq =>
          split at h <;> exact absurd h (by simp)
      · rw [if_neg hde] at h
        split at h
        next e2 heq =>
          injection h with h
          exact h ▸ update_plugin_error ctx _ e2 heq
        next st2 heq =>
          split at h <;> exact absurd h (by simp)

theorem enable_error (ctx : Ctx) (st : RunSt) (msg : String)
    (h : DockerPluginManager.enable ctx st = Except.error msg) :
    gatewayErrMsg ctx.params msg := by
  rw [DockerPluginManager.enable] at h
  have instThenEnable : ∀ (st1 : RunSt) (e2 : String),
      (match DockerPluginManager.install_plugin ctx st1 with
        | Except.error err => Except.error err
        | Except.ok stI => DockerPluginManager.enable_plugin ctx true stI) =
        Except.error e2 →
      gatewayErrMsg ctx.params e2 := by
    intro st1 e2 heq
    split at heq
    next e3 heqI =>
      injection heq with heq
      exact heq ▸ install_plugin_error ctx st1 e3 heqI
    next stI heqI =>
      exact enable_plugin_error ctx true stI e2 heq
  cases hsnap : st.existing_plugin with
  | none =>
    rw [hsnap] at h
    dsimp only at h
    rw [if_pos (show (List.isEmpty ([] : List DiffRec)) = true from rfl)] at h
    split at h
    next e2 heq =>
      injection h with h
      have hg := instThenEnable ⟨st.engine, st.trace, none, st.changed, st.actions,
        st.actionsPopped, st.diff_tracker ++ [DockerPluginManager.existsRec st],
        st.resultsDiff⟩ e2 heq
      exact h ▸ hg
    next st2 heq =>
      split at h <;> exact absurd h (by simp)
  | some p =>
    rw [hsnap] at h
    dsimp only at h
    cases hhd : DockerPluginManager.has_different_config ctx p with
    | error e =>
      rw [hhd] at h
      injection h with h
      refine Or.inr (Or.inr (Or.inr (Or.inr (Or.inr (Or.inr (Or.inr ?_))))))
      exact h.symm.trans (hdc_error_val ctx p e hhd)
    | ok differences =>
      rw [hhd] at h
      dsimp only at h
      by_cases hde : differences.isEmpty = true
      · rw [if_pos hde] at h
        split at h
        next e2 heq =>
          injection h with h
          have hg := instThenEnable ⟨st.engine, st.trace, some p, st.changed, st.actions,
            st.actionsPopped, st.diff_tracker ++ [DockerPluginManager.existsRec st],
            st.resultsDiff⟩ e2 heq
          exact h ▸ hg
        next st2 heq =>
          split at h <;> exact absurd h (by simp)
      · rw [if_neg hde] at h
        split at h
        next e2 heq =>
          injection h with h
          exact h ▸ update_plugin_error ctx _ e2 heq
        next st2 heq =>
          split at h <;> exact absurd h (by simp)

theorem run_error (ctx : Ctx) (eng : Engine) (msg : String)
    (h : DockerPluginManager.run ctx eng = Except.error msg) :
    gatewayErrMsg ctx.params msg := by
  rw [DockerPluginManager.run, DockerPluginManager.get_existing_plugin] at h
  dsimp only at h
  cases hlf : eng.lookupFail with
  | some e =>
    simp only [Engine.lookupOp, hlf] at h
    injection h with h
    exact Or.inl ⟨e, h.symm⟩
  | none =>
    simp only [Engine.lookupOp, hlf] at h
    cases hstate : ctx.params.state with
    | present =>
      simp only [hstate] at h
      split at h
      next e2 heq =>
        injection h with h
        exact h ▸ present_error ctx _ e2 heq
      next st2 heq =>
        split at h <;> exact absurd h (by simp)
    | enabled =>
      simp only [hstate] at h
      split at h
      next e2 heq =>
        injection h with h
        exact h ▸ enable_error ctx _ e2 heq
      next st2 heq =>
        split at h <;> exact absurd h (by simp)
    | absent =>
      simp only [hstate] at h
      rw [DockerPluginManager.absent] at h
      split at h
      next e2 heq =>
        injection h with h
        exact h ▸ remove_plugin_error ctx _ e2 heq
      next st2 heq =>
        split at h <;> exact absurd h (by simp)
    | disabled =>
      simp only [hstate] at h
      rw [DockerPluginManager.disable] at h
      split at h
      next e2 heq =>
        injection h with h
        exact h ▸ disable_plugin_error ctx true _ e2 heq
      next st2 heq =>
        split at h <;> exact absurd h (by simp)

theorem containsStr_appL (a b n : String) (h : containsStr a n) :
    containsStr (a ++ b) n := by
  show n.data <:+: (a ++ b).data
  rw [String.data_append]
  exact h.trans (List.infix_append [] a.data b.data)

theorem containsStr_appR (a b n : String) (h : containsStr b n) :
    containsStr (a ++ b) n := by
  show n.data <:+: (a ++ b).data
  rw [String.data_append]
  exact h.trans (List.suffix_append a.data b.data).isInfix

theorem containsStr_append_self (a n : String) : containsStr (a ++ n) n := by
  show n.data <:+: (a ++ n).data
  rw [String.data_append]
  exact (List.suffix_append a.data n.data).isInfix

theorem containsWrap (pfx e n : String) (h : containsStr pfx n) :
    containsStr (wrap_error pfx e) n :=
  containsStr_appL _ _ _ (containsStr_appL _ _ _ h)

theorem containsTuple (s n : String) (h : containsStr s n) :
    containsStr (strOfTuple1 s) n :=
  containsStr_appL _ _ _ (containsStr_appR _ _ _ h)

/-- Claim C8 (amended): (1) every failing run aborts with one of the
failure messages of the module — the wrapped Gateway failure of one of the
six operations (there is no partial result: the run yields only the
error); (2) the five mutating-operation messages each contain both the
plugin alias and the operation in flight, and the lookup failure
message names the operation (the query) — but, per the counterexample,
NOT the alias. -/
theorem C8_error_propagation :
    (∀ (ctx : Ctx) (eng : Engine) (msg : String),
      DockerPluginManager.run ctx eng = Except.error msg →
      gatewayErrMsg ctx.params msg) ∧
    (∀ (p : Params) (e : String),
      containsStr (installFailMsg p e) p.aliasName ∧
      containsStr (installFailMsg p e) "install" ∧
      containsStr (removeFailMsg p e) p.aliasName ∧
      containsStr (removeFailMsg p e) "remove" ∧
      containsStr (enableFailMsg p e) p.aliasName ∧
      containsStr (enableFailMsg p e) "enable" ∧
      containsStr (disableFailMsg p e) p.aliasName ∧
      containsStr (disableFailMsg p e) "disable" ∧
      containsStr (configureFailMsg p e) p.aliasName ∧
      containsStr (configureFailMsg p e) "update" ∧
      containsStr (lookupFailMsg e) "query") := by
  refine ⟨run_error, ?_⟩
  intro p e
  refine ⟨?_, ?_, ?_, ?_, ?_, ?_, ?_, ?_, ?_, ?_, ?_⟩
  · exact containsWrap _ _ _ (containsStr_appL _ _ _ (containsStr_appL _ _ _
      (containsStr_append_self "Failed to install local docker logging plugin " p.aliasName)))
  · exact containsWrap _ _ _ (containsStr_appL _ _ _ (containsStr_appL _ _ _
      (containsStr_appL _ _ _ (by decide))))
  · exact containsWrap _ _ _
      (containsStr_append_self "Failed to remove local docker logging plugin " p.aliasName)
  · exact containsWrap _ _ _ (containsStr_appL _ _ _ (by decide))
  · exact containsWrap _ _ _ (containsTuple _ _ (containsStr_appL _ _ _
      (containsStr_append_self "Failed to enable local docker logging plugin " p.aliasName)))
  · exact containsWrap _ _ _ (containsTuple _ _ (containsStr_appL _ _ _
      (containsStr_appL _ _ _ (by decide))))
  · exact containsWrap _ _ _ (containsTuple _ _ (containsStr_appL _ _ _
      (containsStr_append_self "Failed to disable local docker logging plugin " p.aliasName)))
  · exact containsWrap _ _ _ (containsTuple _ _ (containsStr_appL _ _ _
      (containsStr_appL _ _ _ (by decide))))
  · exact containsWrap _ _ _ (containsTuple _ _
      (containsStr_append_self "Failed to update local docker logging plugin " p.aliasName))
  · exact containsWrap _ _ _ (containsTuple _ _ (containsStr_appL _ _ _ (by decide)))
  · exact containsWrap _ _ _ (by decide)

/-- The engine whose remove operation fails with transport error
`boom`. -/
def removeFailEngine : Engine :=
  ⟨some ⟨true, []⟩, ⟨false, []⟩, none, none, some "boom", none, none, none⟩

/-- Claim C8 witness: a run whose remove fails aborts with a message of
the characterized shape. -/
theorem C8_error_propagation_witness :
    gatewayErrMsg (lokiParams TState.absent none)
      (removeFailMsg (lokiParams TState.absent none) "boom") :=
  C8_error_propagation.1 ⟨lokiParams TState.absent none, false, false⟩
    removeFailEngine (removeFailMsg (lokiParams TState.absent none) "boom") rfl

/-! ### The update path (claim C3) -/

/-- Claim C3 (confirmed): on the update path (plugin exists,
differences non-empty) with a snapshot that agrees with the engine and
no transport failures: outside check mode the plugin is disabled first
iff the snapshot says enabled, `configure` is called with the encoded
desired configuration, and iff the effective target state is `enabled`
the plugin is re-fetched and re-enabled afterward (this covers the
already-disabled, stale-configuration case, which is reconfigured and
then enabled); no user-facing disable/enable action is logged, exactly
one "Updated" action is appended, and `changed` is set once — also in
check mode, where no Gateway call is made at all. -/
theorem C3_update_path (ctx : Ctx) (st : RunSt) (p : EnginePlugin)
    (hsnap : st.existing_plugin = some p)
    (heng : st.engine.plugin = some p)
    (hlf : st.engine.lookupFail = none)
    (hef : st.engine.enableFail = none)
    (hdf : st.engine.disableFail = none)
    (hcf : st.engine.configureFail = none) :
    (DockerPluginManager.update_plugin ctx st).toOption.map
      (fun s => (s.actions, s.changed, s.trace)) =
    some (st.actions ++ [updatedAction ctx.params], true,
      st.trace ++
        (if ctx.check_mode then [] else
          (if p.enabled then [GCall.disable] else []) ++
          [GCall.configure (prepare_options ctx.params.plugin_options)] ++
          (if ctx.params.state = TState.enabled then [GCall.lookup, GCall.enable 1] else []))) := by
  rw [DockerPluginManager.update_plugin]
  cases hcm : ctx.check_mode with
  | true => simp
  | false =>
    simp only [Bool.false_eq_true, if_false, hsnap]
    cases hpe : p.enabled with
    | false =>
      simp only [Bool.false_eq_true, if_false]
      simp only [Engine.configureOp, hcf]
      by_cases hste : ctx.params.state = TState.enabled
      · simp only [hste, if_true]
        rw [DockerPluginManager.enable_plugin, DockerPluginManager.get_existing_plugin]
        simp only [Engine.lookupOp, hlf, heng, hpe, Engine.enableOp, hef]
        simp [hcm, hpe, List.append_assoc]
      · simp only [hste, if_false]
        simp [hcm, hpe, List.append_assoc]
    | true =>
      simp only [if_true]
      rw [DockerPluginManager.disable_plugin]
      simp only [hsnap, hpe, if_true, hcm, Bool.false_eq_true, if_false,
        Engine.disableOp, hdf, Engine.configureOp, hcf]
      by_cases hste : ctx.params.state = TState.enabled
      · simp only [hste, if_true]
        rw [DockerPluginManager.enable_plugin, DockerPluginManager.get_existing_plugin]
        simp only [Engine.lookupOp, hlf, heng, Engine.enableOp, hef]
        simp [hcm, List.append_assoc]
      · simp only [hste, if_false]
        simp [hcm, List.append_assoc]

/-- Claim C2 (amended): with target_state=enabled, an existing enabled
plugin and matching configuration, `changed=false` and no MUTATING
Gateway call is made — the trace holds exactly the two lookup calls
(the initial fetch in the constructor and the enable-path re-fetch),
whatever the check/debug/diff flags. -/
theorem C2_enabled_matching_no_mutation (ctx : Ctx) (eng : Engine) (p : EnginePlugin)
    (hstate : ctx.params.state = TState.enabled)
    (hplugin : eng.plugin = some p)
    (henabled : p.enabled = true)
    (hlf : eng.lookupFail = none)
    (hmatch : configMatches ctx.params.plugin_options p) :
    (DockerPluginManager.run ctx eng).toOption.map (fun st => (st.changed, st.trace)) =
      some (false, [GCall.lookup, GCall.lookup]) := by
  rw [DockerPluginManager.run, DockerPluginManager.get_existing_plugin]
  simp only [Engine.lookupOp, hlf, hstate]
  rw [DockerPluginManager.enable]
  simp only [hplugin]
  rw [configMatches_hdc ctx p hmatch]
  simp only [List.isEmpty_nil, if_true]
  rw [DockerPluginManager.install_plugin]
  simp only
  rw [DockerPluginManager.enable_plugin, DockerPluginManager.get_existing_plugin]
  simp only [Engine.lookupOp, hlf, hplugin, henabled, if_true]
  by_cases h1 : (ctx.diff || ctx.check_mode || ctx.params.debug) = true
  · by_cases h2 : (!ctx.check_mode && !ctx.params.debug) = true
    · simp [h1, h2]
    · simp [h1, h2]
  · by_cases h2 : (!ctx.check_mode && !ctx.params.debug) = true
    · simp [h1, h2]
    · simp [h1, h2]

/-- Claim C2 witness: the amended statement at the concrete scenario
(alias loki, live `LOG_LEVEL=INFO`, desired `LOG_LEVEL: INFO`). -/
theorem C2_enabled_matching_witness :
    (DockerPluginManager.run
        ⟨lokiParams TState.enabled (some [("LOG_LEVEL", some "INFO")]), false, false⟩
        (happyEngine (some ⟨true, ["LOG_LEVEL=INFO"]⟩))).toOption.map
      (fun st => (st.changed, st.trace)) = some (false, [GCall.lookup, GCall.lookup]) :=
  C2_enabled_matching_no_mutation
    ⟨lokiParams TState.enabled (some [("LOG_LEVEL", some "INFO")]), false, false⟩
    (happyEngine (some ⟨true, ["LOG_LEVEL=INFO"]⟩)) ⟨true, ["LOG_LEVEL=INFO"]⟩
    rfl rfl rfl rfl
    (Or.inr ⟨[("LOG_LEVEL", "INFO")], rfl, by decide, by decide⟩)

/-- Claim C7 (amended): for target_state=absent, if a plugin exists the
result has `changed=true`, the removed action is logged, and the remove
operation is invoked iff the run is not in check mode (check mode skips
the call while still reporting); if no plugin exists the run is a no-op
with `changed=false` and no mutating Gateway call — the trace is just
the initial lookup. -/
theorem C7_absent_reconcile (ctx : Ctx) (eng : Engine)
    (hstate : ctx.params.state = TState.absent)
    (hlf : eng.lookupFail = none)
    (hrf : eng.removeFail = none) :
    (DockerPluginManager.run ctx eng).toOption.map
      (fun st => (st.changed, st.trace, st.actions)) =
      some (eng.plugin.isSome,
        GCall.lookup :: (if eng.plugin.isSome && !ctx.check_mode then [GCall.remove] else []),
        if eng.plugin.isSome then [removedAction ctx.params] else []) := by
  rw [DockerPluginManager.run, DockerPluginManager.get_existing_plugin]
  simp only [Engine.lookupOp, hlf, hstate]
  rw [DockerPluginManager.absent, DockerPluginManager.remove_plugin]
  cases hp : eng.plugin with
  | none =>
    simp only [Option.isSome_none]
    by_cases h1 : (ctx.diff || ctx.check_mode || ctx.params.debug) = true
    · simp [h1]
    · simp [h1]
  | some q =>
    simp only [Option.isSome_some]
    cases hcm : ctx.check_mode with
    | true =>
      simp only [if_true]
      simp
    | false =>
      simp only [Engine.removeOp, hrf, Bool.not_false, Bool.and_true]
      by_cases h1 : ctx.diff = true ∨ ctx.params.debug = true
      · simp [h1]
      · simp [h1]

/-- Claim C7 witness: the amended statement at a concrete non-check run
with an existing plugin: lookup then remove, changed, one action. -/
theorem C7_absent_reconcile_witness :
    (DockerPluginManager.run ⟨lokiParams TState.absent none, false, false⟩
        (happyEngine (some ⟨true, []⟩))).toOption.map
      (fun st => (st.changed, st.trace, st.actions)) =
      some (true, [GCall.lookup, GCall.remove],
        [removedAction (lokiParams TState.absent none)]) := by
  have h := C7_absent_reconcile ⟨lokiParams TState.absent none, false, false⟩
    (happyEngine (some ⟨true, []⟩)) rfl rfl rfl
  simpa using h

/-- Claim C3 witness: concrete update-path run — plugin exists, is
already disabled with stale configuration, target_state=enabled: the
trace is configure, re-fetch, enable; one "Updated" action; changed. -/
theorem C3_update_path_witness :
    (DockerPluginManager.update_plugin
        ⟨lokiParams TState.enabled (some [("LOG_LEVEL", some "DEBUG")]), false, false⟩
        ⟨happyEngine (some ⟨false, ["LOG_LEVEL=INFO"]⟩), [], some ⟨false, ["LOG_LEVEL=INFO"]⟩,
          false, [], false, [], none⟩).toOption.map
      (fun s => (s.actions, s.changed, s.trace)) =
    some (["Updated local docker logging plugin loki settings."], true,
      [GCall.configure ["LOG_LEVEL=DEBUG"], GCall.lookup, GCall.enable 1]) := by
  have h := C3_update_path
    ⟨lokiParams TState.enabled (some [("LOG_LEVEL", some "DEBUG")]), false, false⟩
    ⟨happyEngine (some ⟨false, ["LOG_LEVEL=INFO"]⟩), [], some ⟨false, ["LOG_LEVEL=INFO"]⟩,
      false, [], false, [], none⟩
    ⟨false, ["LOG_LEVEL=INFO"]⟩ rfl rfl rfl rfl rfl rfl
  simpa using h

end SetupLoki
